import Mathlib

/-!
# Verification of `prac` (src/prac.c)

`prac` is a CPython extension that installs an eval-frame hook
(`prac_eval_frame`) intercepting every call.  For each intercepted call it
resolves the `PyCodeObject` being executed to an owning `PyFunctionObject`
(`get_function_for_code`, via `gc.get_referrers`), memoizes that resolution
in a per-code-object extra slot (`NULL` = unset, `SENTINEL` = no owner,
otherwise an owned function pointer), and type-checks the call frame's
arguments against the function's `__annotations__`
(`do_type_checking`) before delegating to `_PyEval_EvalFrameDefault`.

This file is a shallow embedding of that C code: each C function becomes an
executable Lean definition over an explicit model of the host objects, and
the theorems below settle the specification's claims about it.
-/

namespace Prac

/-- A Python type object (`PyTypeObject`).  `id` stands for the object's
identity (its address in C: two distinct type objects have distinct `id`s);
`tp_name` is the printable name; `tp_base` is the identity of the base
class, when one exists, used only to express the subclass relation. -/
structure PyType where
  id : Nat
  tp_name : String
  tp_base : Option Nat
deriving DecidableEq, Repr

/-- The metatype `type`: the runtime type of every exact type object. -/
def typeType : PyType := ⟨0, "type", none⟩

/-- `s` is a strict (direct) subclass of `t`: its `tp_base` is `t`'s
identity and it is not `t` itself. -/
def IsStrictSubclassOf (s t : PyType) : Prop :=
  s.tp_base = some t.id ∧ s ≠ t

instance (s t : PyType) : Decidable (IsStrictSubclassOf s t) := by
  unfold IsStrictSubclassOf; infer_instance

/-- A Python value as seen by the checker: either an ordinary instance whose
concrete runtime type is `ty`, or an exact type object (the only shape for
which C's `PyType_CheckExact` holds). -/
inductive PyValue where
  | obj (ty : PyType)
  | typeObj (t : PyType)
deriving DecidableEq, Repr

/-- C `Py_TYPE`: the concrete runtime type of a value.  The runtime type of
an exact type object is the metatype `type`. -/
def Py_TYPE : PyValue → PyType
  | .obj ty => ty
  | .typeObj _ => typeType

instance : Inhabited PyValue := ⟨.obj ⟨1, "object", none⟩⟩

/-- C `PyType_CheckExact`: the value is exactly a type object. -/
def PyType_CheckExact : PyValue → Bool
  | .typeObj _ => true
  | .obj _ => false

/-- A function object (`PyFunctionObject`): what the checker reads from it
is `func_annotations` (`__annotations__`), a mapping from parameter name to
declared annotation value, iterated in mapping order; `NULL` in C is
`none` here. -/
structure PyFunctionObject where
  func_annotations : Option (List (String × PyValue))
deriving DecidableEq, Repr

/-- A code object (`PyCodeObject`): the checker reads `co_varnames`, the
ordered tuple of local-variable names. -/
structure PyCodeObject where
  co_varnames : List String
deriving DecidableEq, Repr

/-- A call frame (`PyFrameObject`): its code object and the positional
local storage `f_localsplus`. -/
structure PyFrameObject where
  f_code : PyCodeObject
  f_localsplus : List PyValue
deriving DecidableEq, Repr

/-! ## Type checker: `do_type_checking` (src/prac.c lines 92-152) -/

/-- The varname-lookup loop of `do_type_checking` (lines 115-120): linear
scan of `co_varnames` for `key`; the returned index equals
`varnames.length` exactly when `key` is absent, which is the situation the
C `assert` at line 122 rules out. -/
def findVarnameIdx (varnames : List String) (key : String) : Nat :=
  match varnames with
  | [] => 0
  | v :: rest => if v = key then 0 else findVarnameIdx rest key + 1

/-- Outcome of `do_type_checking`.  In C the function returns `bool`
(`true` = a `TypeError` was raised) but can also `abort()` the process or
trip the debug `assert`; those control-flow exits are made explicit. -/
inductive CheckOutcome where
  /-- Returned `false`: every contract satisfied (or none declared). -/
  | ok
  /-- Returned `true` after `PyErr_Format(PyExc_TypeError, ...)` carrying
  the expected type name, the actual type name and the parameter name
  (line 135). -/
  | violation (param : String) (expected actual : PyType)
  /-- `abort()` at line 130: the annotation value is not an exact type
  object; the printf names the annotation value's runtime type. -/
  | abortNonType (tyName : String)
  /-- The `assert` at line 122 fails: the annotation key matches no entry
  of `co_varnames`; with `NDEBUG` the subsequent
  `f_localsplus[varname_idx]` read is out of bounds. -/
  | assertOOB (param : String)
deriving DecidableEq, Repr

/-- The annotation-iteration loop of `do_type_checking` (lines 111-143),
one entry at a time in mapping iteration order:
locate the parameter's slot (assert it exists), read the argument, require
the annotation value to be an exact type object (else `abort`), compare the
argument's runtime type to it by pointer identity (`Py_IS_TYPE`,
line 134), and stop at the first mismatch. -/
def do_check_items (code : PyCodeObject) (f : PyFrameObject) :
    List (String × PyValue) → CheckOutcome
  | [] => .ok
  | (key, ann) :: rest =>
    let idx := findVarnameIdx code.co_varnames key
    if idx = code.co_varnames.length then
      .assertOOB key
    else
      let arg := f.f_localsplus.getD idx default
      match ann with
      | .typeObj expected =>
        if Py_TYPE arg = expected then do_check_items code f rest
        else .violation key expected (Py_TYPE arg)
      | .obj _ => .abortNonType (Py_TYPE ann).tp_name

/-- `do_type_checking` (lines 92-152): `NULL` annotations short-circuit to
`false` (line 93-95); otherwise the items of the annotations mapping are
iterated. -/
def do_type_checking (func : PyFunctionObject) (code : PyCodeObject)
    (f : PyFrameObject) : CheckOutcome :=
  match func.func_annotations with
  | none => .ok
  | some items => do_check_items code f items

/-! ## Resolver: `get_function_for_code` (src/prac.c lines 39-90) -/

/-- One element of the `gc.get_referrers` result list: either a function
object (`PyFunction_Check` holds) or some other live object. -/
inductive Referrer where
  | funcRef (f : PyFunctionObject)
  | nonFunc (tag : Nat)
deriving DecidableEq, Repr

/-- The scan loop of `get_function_for_code` (lines 74-86): first referrer
satisfying `PyFunction_Check` wins; `none` if the list has no function. -/
def scan_referrers : List Referrer → Option PyFunctionObject
  | [] => none
  | .funcRef f :: _ => some f
  | .nonFunc _ :: rest => scan_referrers rest

/-- Result of `get_function_for_code`. -/
inductive ResolveResult where
  /-- A function object was found and `Py_INCREF`ed (lines 83-84): one
  owning reference is acquired on it. -/
  | found (f : PyFunctionObject)
  /-- `NULL` returned: either the referrer query failed (lines 60-71) or no
  referrer was a function. -/
  | notFound
  /-- `abort()` at line 55: `gc.get_referrers` could not be located. -/
  | abortNoGC
deriving DecidableEq, Repr

/-- `get_function_for_code` (lines 39-90).  `gcAvailable` models whether
`gc.get_referrers` can be located (lines 40-57; looked up lazily inside
this function, and on failure the process aborts); `queryOk` models
success of `PyTuple_Pack` and of the referrer query itself (failure of
either returns `NULL`, lines 59-71); `referrers` is the query's result
list. -/
def get_function_for_code (gcAvailable queryOk : Bool)
    (referrers : List Referrer) : ResolveResult :=
  if !gcAvailable then .abortNoGC
  else if !queryOk then .notFound
  else
    match scan_referrers referrers with
    | some f => .found f
    | none => .notFound

/-! ## Interceptor: `prac_eval_frame` (src/prac.c lines 154-179) -/

/-- The per-code-object extra slot read by `_PyCode_GetExtra`:
`unset` is C `NULL` (never resolved), `negative` is the `SENTINEL`
marker `(void*)1` (resolved, no owner), `positive f` is an owned pointer
to the resolved function. -/
inductive CacheState where
  | unset
  | negative
  | positive (f : PyFunctionObject)
deriving DecidableEq, Repr

/-- Reason for a process `abort()` reached from the interceptor. -/
inductive AbortReason where
  /-- line 55: `printf("couldn't find gc.get_referrers?\n"); abort();` -/
  | missingGetReferrers
  /-- line 130: `printf("type expected (for now): ...", tp_name); abort();` -/
  | nonTypeAnn (tyName : String)
deriving DecidableEq, Repr

/-- Observable outcome of one intercepted call. -/
inductive EvalOutcome where
  /-- `_PyEval_EvalFrameDefault(tstate, f, exc)` was invoked on frame `f`
  (line 178): the callee's body executes normally. -/
  | delegated (f : PyFrameObject)
  /-- `do_type_checking` returned `true`, so `prac_eval_frame` returns
  `NULL` (line 174) with a `TypeError` set naming the parameter, the
  expected type and the actual type; the body never runs. -/
  | rejected (param : String) (expected actual : PyType)
  /-- The process aborted inside the call path. -/
  | abortProcess (r : AbortReason)
  /-- The line-122 assertion failed (debug), or — with `NDEBUG` — the frame
  local storage was indexed out of bounds. -/
  | assertOrOOB (param : String)
deriving DecidableEq, Repr

/-- The host-dependent inputs of one intercepted call: whether
`_PyCode_GetExtra` succeeds (line 156), whether `gc.get_referrers` is
available, whether the referrer query succeeds, the referrer list the host
would report for this code object, and the frame being evaluated. -/
structure EvalInput where
  getExtraOk : Bool
  gcAvailable : Bool
  queryOk : Bool
  referrers : List Referrer
  frame : PyFrameObject
deriving DecidableEq, Repr

/-- Effect of one `prac_eval_frame` call: the new cache slot value, the
observable outcome, how many times `get_function_for_code` was invoked,
and how many owning references (`Py_INCREF`) were acquired and stored. -/
structure EvalStep where
  cache : CacheState
  outcome : EvalOutcome
  resolverCalls : Nat
  increfs : Nat
deriving DecidableEq, Repr

/-- Lines 173-175: the checker's outcome decides between rejecting the call
(`return NULL`) and falling through to `_PyEval_EvalFrameDefault`. -/
def runCheck (func : PyFunctionObject) (fr : PyFrameObject) : EvalOutcome :=
  match do_type_checking func fr.f_code fr with
  | .ok => .delegated fr
  | .violation p e a => .rejected p e a
  | .abortNonType n => .abortProcess (.nonTypeAnn n)
  | .assertOOB p => .assertOrOOB p

/-- `prac_eval_frame` (lines 154-179) acting on the code object's cache
slot `st`: a `_PyCode_GetExtra` failure skips straight to the default
eval; an unset slot triggers resolution and `_PyCode_SetExtra` of either
the function or `SENTINEL` (line 163); a `SENTINEL` slot delegates
immediately; a positive slot goes to type checking. -/
def prac_eval_frame (inp : EvalInput) (st : CacheState) : EvalStep :=
  if !inp.getExtraOk then ⟨st, .delegated inp.frame, 0, 0⟩
  else
    match st with
    | .unset =>
      match get_function_for_code inp.gcAvailable inp.queryOk inp.referrers with
      | .abortNoGC => ⟨.unset, .abortProcess .missingGetReferrers, 1, 0⟩
      | .notFound => ⟨.negative, .delegated inp.frame, 1, 0⟩
      | .found func => ⟨.positive func, runCheck func inp.frame, 1, 1⟩
    | .negative => ⟨.negative, .delegated inp.frame, 0, 0⟩
    | .positive func => ⟨.positive func, runCheck func inp.frame, 0, 0⟩

/-- An outcome that terminates the whole process (`abort()`, or the failed
assertion of a debug build): no further call can be intercepted after it. -/
def isFatal : EvalOutcome → Bool
  | .abortProcess _ => true
  | .assertOrOOB _ => true
  | .delegated _ => false
  | .rejected _ _ _ => false

/-- A sequence of intercepted calls on the same code object: final cache
state, total resolver invocations, total owning references acquired.
A fatal outcome ends the sequence (the process is gone). -/
def evalTrace (inputs : List EvalInput) (st : CacheState) :
    CacheState × Nat × Nat :=
  match inputs with
  | [] => (st, 0, 0)
  | inp :: rest =>
    let s := prac_eval_frame inp st
    if isFatal s.outcome then (s.cache, s.resolverCalls, s.increfs)
    else
      let t := evalTrace rest s.cache
      (t.1, s.resolverCalls + t.2.1, s.increfs + t.2.2)

/-! ## Destruction callback: `prac_code_freefunc` (src/prac.c lines 181-185) -/

/-- `prac_code_freefunc`, run by the host exactly once when the code object
is destroyed; returns the number of `Py_DECREF`s it performs on the stored
pointer: one when the slot holds an owned function, zero when it is `NULL`
or `SENTINEL` (line 182). -/
def prac_code_freefunc : CacheState → Nat
  | .positive _ => 1
  | .negative => 0
  | .unset => 0

/-! ## Enable: `prac_enable` (src/prac.c lines 187-205) -/

/-- Per-interpreter eval-frame hook value. -/
inductive FrameHook where
  | defaultHook
  | pracHook
  | otherHook
deriving DecidableEq, Repr

/-- Process-wide state touched by `prac_enable`: whether the
`gc.get_referrers` capability is present in the host (never consulted by
`prac_enable`; only `get_function_for_code` looks it up), the number of
code-extra slots already handed out by
`_PyEval_RequestCodeExtraIndex`, the module's static `extra_idx`, and the
eval-frame hook of each interpreter in `PyInterpreterState_Head` order. -/
structure ProcState where
  gcAvailable : Bool
  usedExtras : Nat
  extra_idx : Nat
  interps : List FrameHook
deriving DecidableEq, Repr

/-- CPython caps code-extra users at `MAX_CO_EXTRA_USERS = 255`;
`_PyEval_RequestCodeExtraIndex` returns `-1` once they are exhausted. -/
def MAX_CO_EXTRA_USERS : Nat := 255

/-- Result of `prac_enable`. -/
inductive EnableResult where
  /-- `Py_RETURN_NONE` (line 204). -/
  | ok
  /-- `PyErr_Format(PyExc_ValueError, "used all code extras!")`
  (line 191). -/
  | valueErrorAllExtrasUsed
  /-- The line-199 `assert(_PyInterpreterState_GetEvalFrameFunc(interp) ==
  _PyEval_EvalFrameDefault)` failed on some interpreter. -/
  | assertHookNotDefault
deriving DecidableEq, Repr

/-- The interpreter loop of `prac_enable` (lines 198-202): for each
interpreter, assert its hook is the default, then set it to
`prac_eval_frame`.  Returns the hooks after the loop and whether every
assertion held; on the first failing assertion the loop stops (debug
build), leaving that interpreter and its successors untouched. -/
def installHooks : List FrameHook → List FrameHook × Bool
  | [] => ([], true)
  | h :: rest =>
    if h = .defaultHook then
      let t := installHooks rest
      (.pracHook :: t.1, t.2)
    else
      (h :: rest, false)

/-- `prac_enable` (lines 187-205): request a fresh code-extra index
registering `prac_code_freefunc` (error if exhausted), store it in
`extra_idx`, then install the hook on every interpreter. -/
def prac_enable (st : ProcState) : ProcState × EnableResult :=
  if st.usedExtras ≥ MAX_CO_EXTRA_USERS then
    (st, .valueErrorAllExtrasUsed)
  else
    let idx := st.usedExtras
    let t := installHooks st.interps
    ({ st with usedExtras := st.usedExtras + 1, extra_idx := idx,
               interps := t.1 },
     if t.2 then .ok else .assertHookNotDefault)

/-- The call resolves to `func`: either the cache slot already holds it, or
the slot is unset and this call's resolution finds it (the two paths on
which `prac_eval_frame` reaches `do_type_checking`, lines 160-171). -/
def resolvesTo (inp : EvalInput) (st : CacheState)
    (func : PyFunctionObject) : Prop :=
  st = .positive func ∨
    (st = .unset ∧
      get_function_for_code inp.gcAvailable inp.queryOk inp.referrers
        = .found func)

/-! ### Concrete host objects used in the closed instances below -/

/-- The builtin `int` type object. -/
def intT : PyType := ⟨10, "int", none⟩

/-- The builtin `str` type object. -/
def strT : PyType := ⟨11, "str", none⟩

/-- A user-defined class `Base`. -/
def baseT : PyType := ⟨12, "Base", none⟩

/-- A user-defined class `Sub(Base)`: a strict subclass of `Base`. -/
def subT : PyType := ⟨13, "Sub", some 12⟩

/-! ## Helper lemmas -/

theorem findVarnameIdx_le (vs : List String) (k : String) :
    findVarnameIdx vs k ≤ vs.length := by
  induction vs with
  | nil => simp [findVarnameIdx]
  | cons v rest ih =>
    simp only [findVarnameIdx, List.length_cons]
    split
    · omega
    · omega

theorem findVarnameIdx_of_not_mem (vs : List String) (k : String) (h : k ∉ vs) :
    findVarnameIdx vs k = vs.length := by
  induction vs with
  | nil => simp [findVarnameIdx]
  | cons v rest ih =>
    simp only [List.mem_cons, not_or] at h
    have hv : ¬ v = k := fun hh => h.1 hh.symm
    simp only [findVarnameIdx, if_neg hv, List.length_cons, ih h.2]

theorem findVarnameIdx_lt_of_mem (vs : List String) (k : String) (h : k ∈ vs) :
    findVarnameIdx vs k < vs.length := by
  induction vs with
  | nil => simp at h
  | cons v rest ih =>
    simp only [findVarnameIdx, List.length_cons]
    split
    · omega
    · rename_i hv
      rcases List.mem_cons.mp h with h1 | h2
      · exact absurd h1.symm hv
      · have := ih h2
        omega

/-- One step of the annotation loop, factored through the check of the
head entry alone. -/
theorem do_check_items_cons (code : PyCodeObject) (f : PyFrameObject)
    (e : String × PyValue) (rest : List (String × PyValue)) :
    do_check_items code f (e :: rest) =
      match do_check_items code f [e] with
      | .ok => do_check_items code f rest
      | r => r := by
  obtain ⟨key, ann⟩ := e
  by_cases hidx : findVarnameIdx code.co_varnames key = code.co_varnames.length
  · simp [do_check_items, hidx]
  · cases ann with
    | typeObj expected =>
      simp only [do_check_items, if_neg hidx]
      split
      · rfl
      · rfl
    | obj t => simp [do_check_items, hidx]

/-- Entries that pass are traversed without effect: the loop's result is the
result on the remaining entries. -/
theorem do_check_items_append_of_passes (code : PyCodeObject)
    (f : PyFrameObject) (pre rest : List (String × PyValue))
    (h : ∀ e ∈ pre, do_check_items code f [e] = .ok) :
    do_check_items code f (pre ++ rest) = do_check_items code f rest := by
  induction pre with
  | nil => rfl
  | cons e pre ih =>
    rw [List.cons_append, do_check_items_cons, h e (List.mem_cons_self e pre)]
    exact ih (fun x hx => h x (List.mem_cons_of_mem e hx))

theorem outcome_of_resolvesTo (inp : EvalInput) (st : CacheState)
    (func : PyFunctionObject) (hget : inp.getExtraOk = true)
    (hres : resolvesTo inp st func) :
    (prac_eval_frame inp st).outcome = runCheck func inp.frame := by
  rcases hres with h | ⟨h1, h2⟩
  · subst h; simp [prac_eval_frame, hget]
  · subst h1; simp [prac_eval_frame, hget, h2]

/-- A cache slot that has left `unset` is never written again and never
triggers resolution or reference acquisition. -/
theorem prac_eval_frame_stable (inp : EvalInput) (st : CacheState)
    (h : st ≠ .unset) :
    (prac_eval_frame inp st).cache = st
      ∧ (prac_eval_frame inp st).resolverCalls = 0
      ∧ (prac_eval_frame inp st).increfs = 0 := by
  cases st with
  | unset => exact absurd rfl h
  | negative => cases hget : inp.getExtraOk <;> simp [prac_eval_frame, hget]
  | positive f => cases hget : inp.getExtraOk <;> simp [prac_eval_frame, hget]

theorem evalTrace_stable (inputs : List EvalInput) (st : CacheState)
    (h : st ≠ .unset) : evalTrace inputs st = (st, 0, 0) := by
  induction inputs with
  | nil => rfl
  | cons inp rest ih =>
    obtain ⟨h1, h2, h3⟩ := prac_eval_frame_stable inp st h
    simp only [evalTrace, h1, h2, h3]
    by_cases hf : isFatal (prac_eval_frame inp st).outcome
    · simp [hf, h1, h2, h3]
    · simp [hf, ih, h1, h2, h3]

/-- From an unset slot, any sequence of calls invokes the resolver at most
once. -/
theorem evalTrace_unset_resolver_le_one (inputs : List EvalInput) :
    (evalTrace inputs .unset).2.1 ≤ 1 := by
  induction inputs with
  | nil => simp [evalTrace]
  | cons inp rest ih =>
    simp only [evalTrace]
    cases hget : inp.getExtraOk with
    | false =>
      simpa [prac_eval_frame, hget, isFatal] using ih
    | true =>
      cases hres :
          get_function_for_code inp.gcAvailable inp.queryOk inp.referrers with
      | found f =>
        simp only [prac_eval_frame, hget, hres, Bool.not_true]
        by_cases hf : isFatal (runCheck f inp.frame)
        · simp [hf]
        · simp [hf, evalTrace_stable rest (.positive f) (by simp)]
      | notFound =>
        simp [prac_eval_frame, hget, hres, isFatal,
          evalTrace_stable rest .negative (by simp)]
      | abortNoGC =>
        simp [prac_eval_frame, hget, hres, isFatal]

/-- Reference balance of one step: owned references held by the slot after
the step equal those held before plus those acquired during it. -/
theorem freefunc_step (inp : EvalInput) (st : CacheState) :
    prac_code_freefunc (prac_eval_frame inp st).cache
      = prac_code_freefunc st + (prac_eval_frame inp st).increfs := by
  cases hget : inp.getExtraOk with
  | false => simp [prac_eval_frame, hget]
  | true =>
    cases st with
    | unset =>
      cases hres :
          get_function_for_code inp.gcAvailable inp.queryOk inp.referrers <;>
        simp [prac_eval_frame, hget, hres, prac_code_freefunc]
    | negative => simp [prac_eval_frame, hget, prac_code_freefunc]
    | positive f => simp [prac_eval_frame, hget, prac_code_freefunc]

/-- Reference balance of a whole call sequence. -/
theorem freefunc_trace (inputs : List EvalInput) (st : CacheState) :
    prac_code_freefunc (evalTrace inputs st).1
      = prac_code_freefunc st + (evalTrace inputs st).2.2 := by
  induction inputs generalizing st with
  | nil => simp [evalTrace]
  | cons inp rest ih =>
    simp only [evalTrace]
    by_cases hf : isFatal (prac_eval_frame inp st).outcome
    · simp [hf, freefunc_step inp st]
    · simp only [hf, Bool.false_eq_true, if_false]
      rw [ih (prac_eval_frame inp st).cache, freefunc_step inp st]
      omega

/-- The scan returns the first function object in the referrer list. -/
theorem scan_referrers_first (others rest : List Referrer)
    (f : PyFunctionObject)
    (h : ∀ r ∈ others, ∀ g, r ≠ Referrer.funcRef g) :
    scan_referrers (others ++ Referrer.funcRef f :: rest) = some f := by
  induction others with
  | nil => rfl
  | cons r others ih =>
    cases r with
    | funcRef g => exact absurd rfl (h _ (List.mem_cons_self _ _) g)
    | nonFunc t =>
      simpa [scan_referrers] using
        ih (fun x hx => h x (List.mem_cons_of_mem _ hx))

/-- A referrer list with no function object scans to nothing. -/
theorem scan_referrers_none (referrers : List Referrer)
    (h : ∀ r ∈ referrers, ∀ g, r ≠ Referrer.funcRef g) :
    scan_referrers referrers = none := by
  induction referrers with
  | nil => rfl
  | cons r rest ih =>
    cases r with
    | funcRef g => exact absurd rfl (h _ (List.mem_cons_self _ _) g)
    | nonFunc t =>
      simpa [scan_referrers] using
        ih (fun x hx => h x (List.mem_cons_of_mem _ hx))

/-- When every interpreter still has the default hook, the install loop
sets them all and every assertion holds. -/
theorem installHooks_all_default (hooks : List FrameHook)
    (h : ∀ x ∈ hooks, x = .defaultHook) :
    installHooks hooks = (hooks.map (fun _ => .pracHook), true) := by
  induction hooks with
  | nil => rfl
  | cons x rest ih =>
    have hx := h x (List.mem_cons_self x rest)
    simp [installHooks, hx, ih (fun y hy => h y (List.mem_cons_of_mem x hy))]

/-! ## Claim theorems -/

/-- C1: on an intercepted call whose resolved function declares a contract
that some argument violates, the callee's body is never executed (the
outcome is never a delegation to the default eval), the raised error
carries the offending parameter name, its expected type and the argument's
actual type, and only the first violated contract in table iteration order
is reported: the entries after it (`rest`) are unconstrained and never
examined. -/
theorem first_violation_rejects_call (inp : EvalInput) (st : CacheState)
    (func : PyFunctionObject) (pre rest : List (String × PyValue))
    (key : String) (expected : PyType)
    (hget : inp.getExtraOk = true)
    (hres : resolvesTo inp st func)
    (hann : func.func_annotations
      = some (pre ++ (key, .typeObj expected) :: rest))
    (hpre : ∀ e ∈ pre, do_check_items inp.frame.f_code inp.frame [e] = .ok)
    (hidx : findVarnameIdx inp.frame.f_code.co_varnames key
      ≠ inp.frame.f_code.co_varnames.length)
    (hviol : Py_TYPE (inp.frame.f_localsplus.getD
        (findVarnameIdx inp.frame.f_code.co_varnames key) default)
      ≠ expected) :
    (prac_eval_frame inp st).outcome
        = .rejected key expected
            (Py_TYPE (inp.frame.f_localsplus.getD
              (findVarnameIdx inp.frame.f_code.co_varnames key) default))
      ∧ ∀ g, (prac_eval_frame inp st).outcome ≠ .delegated g := by
  have hdo : do_type_checking func inp.frame.f_code inp.frame
      = .violation key expected
          (Py_TYPE (inp.frame.f_localsplus.getD
            (findVarnameIdx inp.frame.f_code.co_varnames key) default)) := by
    simp only [do_type_checking, hann]
    rw [do_check_items_append_of_passes _ _ _ _ hpre]
    simp only [do_check_items, if_neg hidx]
    rw [if_neg hviol]
  rw [outcome_of_resolvesTo inp st func hget hres]
  refine ⟨?_, fun g => ?_⟩
  · simp [runCheck, hdo]
  · simp [runCheck, hdo]

theorem first_violation_rejects_call_witness :
    (prac_eval_frame
        ⟨true, true, true, [],
          ⟨⟨["x", "y"]⟩, [PyValue.obj strT, PyValue.obj baseT]⟩⟩
        (.positive
          ⟨some [("x", PyValue.typeObj intT),
                 ("y", PyValue.typeObj strT)]⟩)).outcome
      = EvalOutcome.rejected "x" intT strT := by
  have h := (first_violation_rejects_call
      ⟨true, true, true, [],
        ⟨⟨["x", "y"]⟩, [PyValue.obj strT, PyValue.obj baseT]⟩⟩
      (.positive
        ⟨some [("x", PyValue.typeObj intT), ("y", PyValue.typeObj strT)]⟩)
      ⟨some [("x", PyValue.typeObj intT), ("y", PyValue.typeObj strT)]⟩
      [] [("y", PyValue.typeObj strT)] "x" intT
      rfl (Or.inl rfl) rfl (by simp) (by decide) (by decide)).1
  rw [h]; decide

/-- C2: the checker's comparison is exact type identity: with a single
contract `(key, expected)`, the check passes if and only if the argument's
concrete runtime type is `expected`; in particular an instance of a strict
subclass of `expected` produces a violation, not a pass. -/
theorem check_passes_iff_exact_type (code : PyCodeObject)
    (f : PyFrameObject) (key : String) (expected : PyType)
    (func : PyFunctionObject)
    (hann : func.func_annotations = some [(key, .typeObj expected)])
    (hmem : key ∈ code.co_varnames) :
    (do_type_checking func code f = .ok ↔
      Py_TYPE (f.f_localsplus.getD (findVarnameIdx code.co_varnames key)
        default) = expected)
    ∧ (IsStrictSubclassOf
        (Py_TYPE (f.f_localsplus.getD (findVarnameIdx code.co_varnames key)
          default)) expected →
      do_type_checking func code f
        = .violation key expected
            (Py_TYPE (f.f_localsplus.getD
              (findVarnameIdx code.co_varnames key) default))) := by
  have hidx : findVarnameIdx code.co_varnames key
      ≠ code.co_varnames.length :=
    Nat.ne_of_lt (findVarnameIdx_lt_of_mem _ _ hmem)
  simp only [do_type_checking, hann]
  constructor
  · constructor
    · intro h
      by_contra hne
      simp only [do_check_items, if_neg hidx] at h
      rw [if_neg hne] at h
      exact CheckOutcome.noConfusion h
    · intro h
      simp only [do_check_items, if_neg hidx]
      rw [if_pos h]
  · intro hsub
    simp only [do_check_items, if_neg hidx]
    rw [if_neg hsub.2]

theorem check_passes_iff_exact_type_witness :
    IsStrictSubclassOf subT baseT
    ∧ do_type_checking ⟨some [("x", PyValue.typeObj baseT)]⟩ ⟨["x"]⟩
        ⟨⟨["x"]⟩, [PyValue.obj subT]⟩
      = CheckOutcome.violation "x" baseT subT := by
  refine ⟨by decide, ?_⟩
  have h := (check_passes_iff_exact_type ⟨["x"]⟩ ⟨⟨["x"]⟩, [PyValue.obj subT]⟩
      "x" baseT ⟨some [("x", PyValue.typeObj baseT)]⟩ rfl (by decide)).2
      (by decide)
  rw [h]; decide

/-- C4: a call whose resolved function has an absent (`NULL`) or empty
contract table is a pure pass-through: the interceptor delegates to the
host's default execution with the very same frame, raising no contract
error, so the call's result is whatever the default routine produces. -/
theorem empty_contracts_delegate (inp : EvalInput) (st : CacheState)
    (func : PyFunctionObject) (hget : inp.getExtraOk = true)
    (hres : resolvesTo inp st func)
    (hann : func.func_annotations = none
      ∨ func.func_annotations = some []) :
    (prac_eval_frame inp st).outcome = .delegated inp.frame := by
  rw [outcome_of_resolvesTo inp st func hget hres]
  rcases hann with h | h <;> simp [runCheck, do_type_checking, h, do_check_items]

theorem empty_contracts_delegate_witness :
    (prac_eval_frame ⟨true, true, true, [], ⟨⟨["x"]⟩, [PyValue.obj intT]⟩⟩
        (.positive ⟨none⟩)).outcome
      = EvalOutcome.delegated ⟨⟨["x"]⟩, [PyValue.obj intT]⟩ :=
  empty_contracts_delegate _ _ ⟨none⟩ rfl (Or.inl rfl) (Or.inl rfl)

/-- C3: the per-unit cache slot is write-once: on the first intercepted
call (extra slot readable, gc capability present) it moves from unset to
exactly negative or positive; over any sequence of intercepted calls
starting unset the resolver runs at most once; and a slot cached negative
stays negative with zero further resolver invocations, whatever the later
calls look like — including ones whose referrer lists contain a function
object created after the first call. -/
theorem cache_write_once (inp : EvalInput) (inputs : List EvalInput)
    (hget : inp.getExtraOk = true) (hgc : inp.gcAvailable = true) :
    ((prac_eval_frame inp .unset).cache = .negative
      ∨ ∃ f, (prac_eval_frame inp .unset).cache = .positive f)
    ∧ (evalTrace inputs .unset).2.1 ≤ 1
    ∧ evalTrace inputs .negative = (.negative, 0, 0) := by
  refine ⟨?_, evalTrace_unset_resolver_le_one inputs,
    evalTrace_stable inputs .negative (by simp)⟩
  cases hres :
      get_function_for_code inp.gcAvailable inp.queryOk inp.referrers with
  | found f => exact Or.inr ⟨f, by simp [prac_eval_frame, hget, hres]⟩
  | notFound => exact Or.inl (by simp [prac_eval_frame, hget, hres])
  | abortNoGC =>
    exfalso
    cases hq : inp.queryOk <;> cases hscan : scan_referrers inp.referrers <;>
      simp [get_function_for_code, hgc, hq, hscan] at hres

theorem cache_write_once_witness :
    ((prac_eval_frame ⟨true, true, true, [], ⟨⟨[]⟩, []⟩⟩
        CacheState.unset).cache = .negative
      ∨ ∃ f, (prac_eval_frame ⟨true, true, true, [], ⟨⟨[]⟩, []⟩⟩
        CacheState.unset).cache = .positive f)
    ∧ (evalTrace [⟨true, true, true, [Referrer.funcRef ⟨none⟩], ⟨⟨[]⟩, []⟩⟩]
        CacheState.unset).2.1 ≤ 1
    ∧ evalTrace [⟨true, true, true, [Referrer.funcRef ⟨none⟩], ⟨⟨[]⟩, []⟩⟩]
        CacheState.negative = (.negative, 0, 0) :=
  cache_write_once _ _ rfl rfl

/-- C5: the resolver scans the referrer sequence of the unit and returns
the first element that is a function object — acquiring one owning
reference on it when the interceptor stores the result — and when no
referrer is a function object it returns the distinct not-found result,
which the interceptor caches as the stable negative marker. -/
theorem resolver_first_function (others rest referrers : List Referrer)
    (f : PyFunctionObject) (fr : PyFrameObject)
    (hothers : ∀ r ∈ others, ∀ g, r ≠ Referrer.funcRef g)
    (hnone : ∀ r ∈ referrers, ∀ g, r ≠ Referrer.funcRef g) :
    get_function_for_code true true (others ++ Referrer.funcRef f :: rest)
        = .found f
    ∧ (prac_eval_frame
        ⟨true, true, true, others ++ Referrer.funcRef f :: rest, fr⟩
        .unset).increfs = 1
    ∧ get_function_for_code true true referrers = .notFound
    ∧ (prac_eval_frame ⟨true, true, true, referrers, fr⟩ .unset).cache
        = .negative := by
  have h1 : get_function_for_code true true
      (others ++ Referrer.funcRef f :: rest) = .found f := by
    simp [get_function_for_code, scan_referrers_first others rest f hothers]
  have h2 : get_function_for_code true true referrers = .notFound := by
    simp [get_function_for_code, scan_referrers_none referrers hnone]
  refine ⟨h1, ?_, h2, ?_⟩
  · simp [prac_eval_frame, h1]
  · simp [prac_eval_frame, h2]

theorem resolver_first_function_witness :
    get_function_for_code true true
        [Referrer.nonFunc 0, Referrer.funcRef ⟨some []⟩,
         Referrer.funcRef ⟨none⟩] = .found ⟨some []⟩
    ∧ (prac_eval_frame
        ⟨true, true, true,
          [Referrer.nonFunc 0, Referrer.funcRef ⟨some []⟩,
           Referrer.funcRef ⟨none⟩], ⟨⟨[]⟩, []⟩⟩ .unset).increfs = 1
    ∧ get_function_for_code true true [Referrer.nonFunc 1] = .notFound
    ∧ (prac_eval_frame ⟨true, true, true, [Referrer.nonFunc 1], ⟨⟨[]⟩, []⟩⟩
        .unset).cache = .negative := by
  have h := resolver_first_function [Referrer.nonFunc 0]
      [Referrer.funcRef ⟨none⟩] [Referrer.nonFunc 1] ⟨some []⟩ ⟨⟨[]⟩, []⟩
      (by intro r hr g; simp at hr; subst hr; simp)
      (by intro r hr g; simp at hr; subst hr; simp)
  exact h

/-- C6 as stated is false at a concrete input: with the referrer-query
capability absent (`gcAvailable = false`), the Enable operation still
succeeds — `prac_enable` never consults the capability — and the first
intercepted call that reaches resolution aborts the process inside the
per-call path (line 55 of src/prac.c), contradicting both "Enable fails
with a fatal error" and "no per-call interception ever fails for this
reason". -/
theorem enable_no_capability_check_counterexample :
    (prac_enable ⟨false, 0, 0, [FrameHook.defaultHook]⟩).2 = EnableResult.ok
    ∧ (prac_eval_frame ⟨true, false, true, [], ⟨⟨[]⟩, []⟩⟩
        CacheState.unset).outcome
      = EvalOutcome.abortProcess AbortReason.missingGetReferrers := by
  decide

/-- C6 amended: the capability check is lazy and per-call, not at enable
time: `prac_enable` succeeds whether or not the referrer-query capability
is present (it never consults it), and when the capability is absent the
first intercepted call that reaches resolution aborts the whole process
from inside the call path. -/
theorem enable_lazy_capability_check (st : ProcState) (inp : EvalInput)
    (hfree : st.usedExtras < MAX_CO_EXTRA_USERS)
    (hdef : ∀ x ∈ st.interps, x = FrameHook.defaultHook)
    (hgc : inp.gcAvailable = false) (hget : inp.getExtraOk = true) :
    (prac_enable st).2 = .ok
    ∧ (prac_eval_frame inp .unset).outcome
        = .abortProcess .missingGetReferrers := by
  constructor
  · simp only [prac_enable]
    rw [if_neg (by omega : ¬ st.usedExtras ≥ MAX_CO_EXTRA_USERS)]
    simp [installHooks_all_default st.interps hdef]
  · simp [prac_eval_frame, hget, get_function_for_code, hgc]

theorem enable_lazy_capability_check_witness :
    (prac_enable ⟨false, 3, 0, [FrameHook.defaultHook, FrameHook.defaultHook]⟩).2
      = EnableResult.ok
    ∧ (prac_eval_frame ⟨true, false, true, [Referrer.nonFunc 0], ⟨⟨[]⟩, []⟩⟩
        CacheState.unset).outcome
      = EvalOutcome.abortProcess AbortReason.missingGetReferrers :=
  enable_lazy_capability_check _ _ (by decide) (by decide) rfl rfl

/-- C7: when the contract table holds an entry whose parameter name
matches no entry of the code object's local-variable name list — as the
key "return" of a return-value annotation always does — the slot-lookup
loop runs past the end of the list: the computed index equals the list
length, so the line-122 debug assertion fails and, with assertions off,
the frame's local storage is read out of bounds at that index; the entry
is not skipped and no recoverable error is reported. -/
theorem missing_varname_runs_past_end (inp : EvalInput) (st : CacheState)
    (func : PyFunctionObject) (pre rest : List (String × PyValue))
    (key : String) (ann : PyValue)
    (hget : inp.getExtraOk = true) (hres : resolvesTo inp st func)
    (hann : func.func_annotations = some (pre ++ (key, ann) :: rest))
    (hpre : ∀ e ∈ pre, do_check_items inp.frame.f_code inp.frame [e] = .ok)
    (hkey : key ∉ inp.frame.f_code.co_varnames) :
    findVarnameIdx inp.frame.f_code.co_varnames key
        = inp.frame.f_code.co_varnames.length
    ∧ (prac_eval_frame inp st).outcome = .assertOrOOB key := by
  have hidx := findVarnameIdx_of_not_mem _ key hkey
  refine ⟨hidx, ?_⟩
  rw [outcome_of_resolvesTo inp st func hget hres]
  have hdo : do_type_checking func inp.frame.f_code inp.frame
      = .assertOOB key := by
    simp only [do_type_checking, hann]
    rw [do_check_items_append_of_passes _ _ _ _ hpre]
    simp [do_check_items, hidx]
  simp [runCheck, hdo]

theorem missing_varname_runs_past_end_witness :
    findVarnameIdx ["x"] "return" = 1
    ∧ (prac_eval_frame ⟨true, true, true, [], ⟨⟨["x"]⟩, [PyValue.obj intT]⟩⟩
        (.positive ⟨some [("return", PyValue.typeObj intT)]⟩)).outcome
      = EvalOutcome.assertOrOOB "return" := by
  have h := missing_varname_runs_past_end
      ⟨true, true, true, [], ⟨⟨["x"]⟩, [PyValue.obj intT]⟩⟩
      (.positive ⟨some [("return", PyValue.typeObj intT)]⟩)
      ⟨some [("return", PyValue.typeObj intT)]⟩
      [] [] "return" (PyValue.typeObj intT)
      rfl (Or.inl rfl) rfl (by simp) (by decide)
  exact ⟨h.1, h.2⟩

/-- C8: a contract entry whose declared value is not an exact type object
— here an ordinary instance, e.g. the string of a forward reference —
makes the checker abort the entire process (line 130 of src/prac.c),
naming the annotation value's runtime type; there is no recoverable error
and no graceful skip. -/
theorem non_type_contract_aborts (inp : EvalInput) (st : CacheState)
    (func : PyFunctionObject) (pre rest : List (String × PyValue))
    (key : String) (vty : PyType)
    (hget : inp.getExtraOk = true) (hres : resolvesTo inp st func)
    (hann : func.func_annotations
      = some (pre ++ (key, PyValue.obj vty) :: rest))
    (hpre : ∀ e ∈ pre, do_check_items inp.frame.f_code inp.frame [e] = .ok)
    (hkey : key ∈ inp.frame.f_code.co_varnames) :
    (prac_eval_frame inp st).outcome
      = .abortProcess (.nonTypeAnn vty.tp_name) := by
  have hidx : findVarnameIdx inp.frame.f_code.co_varnames key
      ≠ inp.frame.f_code.co_varnames.length :=
    Nat.ne_of_lt (findVarnameIdx_lt_of_mem _ _ hkey)
  rw [outcome_of_resolvesTo inp st func hget hres]
  have hdo : do_type_checking func inp.frame.f_code inp.frame
      = .abortNonType vty.tp_name := by
    simp only [do_type_checking, hann]
    rw [do_check_items_append_of_passes _ _ _ _ hpre]
    simp [do_check_items, hidx, Py_TYPE]
  simp [runCheck, hdo]

theorem non_type_contract_aborts_witness :
    (prac_eval_frame ⟨true, true, true, [], ⟨⟨["x"]⟩, [PyValue.obj intT]⟩⟩
        (.positive ⟨some [("x", PyValue.obj strT)]⟩)).outcome
      = EvalOutcome.abortProcess (AbortReason.nonTypeAnn "str") := by
  have h := non_type_contract_aborts
      ⟨true, true, true, [], ⟨⟨["x"]⟩, [PyValue.obj intT]⟩⟩
      (.positive ⟨some [("x", PyValue.obj strT)]⟩)
      ⟨some [("x", PyValue.obj strT)]⟩ [] [] "x" strT
      rfl (Or.inl rfl) rfl (by simp) (by decide)
  rw [h]; rfl

/-- C9: the destruction callback releases the owned reference exactly once
when the cache slot is positive and performs no release when it is
negative or unset; moreover over any sequence of intercepted calls the
references it will release on destruction equal the references held at the
start plus the references acquired during the sequence — no reference is
leaked and none is released twice. -/
theorem freefunc_releases_iff_positive :
    (∀ f, prac_code_freefunc (.positive f) = 1)
    ∧ prac_code_freefunc .negative = 0
    ∧ prac_code_freefunc .unset = 0
    ∧ ∀ (inputs : List EvalInput) (st : CacheState),
        prac_code_freefunc (evalTrace inputs st).1
          = prac_code_freefunc st + (evalTrace inputs st).2.2 :=
  ⟨fun _ => rfl, rfl, rfl, freefunc_trace⟩

/-- C10 as stated is false at a concrete input: calling `prac_enable` a
second time does not leave the system in the state the first call
produced — it reserves a second per-unit auxiliary slot (two in total,
not one) and fails the line-199 assertion that the installed hook is the
default instead of refusing or no-opping cleanly. -/
theorem enable_not_idempotent_counterexample :
    (prac_enable (prac_enable ⟨true, 0, 0, [FrameHook.defaultHook]⟩).1).1
        ≠ (prac_enable ⟨true, 0, 0, [FrameHook.defaultHook]⟩).1
    ∧ (prac_enable (prac_enable ⟨true, 0, 0,
        [FrameHook.defaultHook]⟩).1).1.usedExtras = 2
    ∧ (prac_enable (prac_enable ⟨true, 0, 0, [FrameHook.defaultHook]⟩).1).2
        = EnableResult.assertHookNotDefault := by
  decide

/-- C10 amended: `prac_enable` is not idempotent: every call made below
the host's slot limit reserves a fresh per-unit auxiliary-storage slot and
overwrites the module's stored index with the new one, and a second call —
made with the interceptor already installed on every interpreter — trips
the debug assertion that each hook is still the default rather than
refusing or no-opping (a release build would re-install unconditionally,
even over a foreign hook). -/
theorem enable_reserves_fresh_slot_each_call (st : ProcState)
    (hfree : st.usedExtras < MAX_CO_EXTRA_USERS) :
    (prac_enable st).1.usedExtras = st.usedExtras + 1
    ∧ (prac_enable st).1.extra_idx = st.usedExtras
    ∧ (st.interps ≠ [] → (∀ x ∈ st.interps, x = FrameHook.pracHook) →
        (prac_enable st).2 = .assertHookNotDefault) := by
  have hif : ¬ st.usedExtras ≥ MAX_CO_EXTRA_USERS := by omega
  refine ⟨by simp [prac_enable, hif], by simp [prac_enable, hif], ?_⟩
  intro hne hall
  cases hint : st.interps with
  | nil => exact absurd hint hne
  | cons x rest =>
    have hx : x = FrameHook.pracHook :=
      hall x (hint ▸ List.mem_cons_self x rest)
    simp [prac_enable, hif, hint, installHooks, hx]

theorem enable_reserves_fresh_slot_each_call_witness :
    (prac_enable ⟨true, 1, 0, [FrameHook.pracHook]⟩).1.usedExtras = 2
    ∧ (prac_enable ⟨true, 1, 0, [FrameHook.pracHook]⟩).1.extra_idx = 1
    ∧ (prac_enable ⟨true, 1, 0, [FrameHook.pracHook]⟩).2
        = EnableResult.assertHookNotDefault := by
  have h := enable_reserves_fresh_slot_each_call
      ⟨true, 1, 0, [FrameHook.pracHook]⟩ (by decide)
  exact ⟨h.1, h.2.1, h.2.2 (by simp) (by simp)⟩

end Prac
